import Mathlib

/-!
# Terraform cost estimator: catalog synchronizer and plan pricer

A shallow embedding of `extractor/main.go` (the catalog synchronizer) and
`api/main.go` (the plan pricer), with theorems about the merge algorithm, the
batch persistence loop, the pagination loop and the HTTP handler.

Go slices are lists.  Calls into libraries outside the two source files
(`net/http`, `encoding/json`, the DynamoDB client, package `common`, package
`pricers`) are parameters of the definitions.  `float64` is an abstract
carrier with its addition and multiplication passed in, so nothing is assumed
about floating-point arithmetic.
-/

set_option autoImplicit false

namespace Extractor

/-- Modelled from the spec: `common.AzurePricingApiItem`, whose declaration is
in package `common`.  The source reads only `Type` and `MeterID`; every other
field of the entry is carried in `Payload`. -/
structure AzurePricingApiItem where
  Type_ : String
  MeterID : String
  Payload : String
deriving DecidableEq, Repr

/-- The `for idx, item := range destItems` loop of `mergePriceItems`.  The
second argument is the part of the slice still to be visited and `idx` the
index of its head.  Returns the slice and `seenFlag`. -/
def mergeScan (srcItem : AzurePricingApiItem) (destItems : List AzurePricingApiItem) :
    List AzurePricingApiItem → Nat → List AzurePricingApiItem × Bool
  | [], _ => (destItems, false)
  | item :: rest, idx =>
    if item.MeterID = srcItem.MeterID then
      (destItems.set idx srcItem, true)
    else
      mergeScan srcItem destItems rest (idx + 1)

/-- Function `mergePriceItems` of `extractor/main.go`. -/
def mergePriceItems (srcItem : AzurePricingApiItem) (destItems : List AzurePricingApiItem) :
    List AzurePricingApiItem :=
  if destItems.length > 0 then
    match mergeScan srcItem destItems destItems 0 with
    | (destItems1, seenFlag) =>
      if !seenFlag then destItems1 ++ [srcItem] else destItems1
  else
    [srcItem]

/-- Modelled from the spec: `common.AzurePricingApiResp`, whose declaration is
in package `common`: a page of the feed, with its `Items` array and its
nullable `NextPageLink` string, the two fields the handler reads. -/
structure AzurePricingApiResp where
  Items : List AzurePricingApiItem
  NextPageLink : Option String
deriving DecidableEq, Repr

/-- What `http.Get` followed by `ioutil.ReadAll(resp.Body)` can produce: a
transport error, or a response with a status code whose body either reads
or fails to read. -/
inductive HttpGetResult where
  | transportError (err : String)
  | response (StatusCode : Nat) (Body : Except String String)

/-- What `svc.GetItem` can produce for a key of the table: an error, no item
(`result.Item == nil`), or an item.  Of an item the source reads
`*result.Item["priceItems"].S`: `priceItems` is that string, and `none` when
the item has no `priceItems` attribute or the attribute holds no string. -/
inductive GetItemOutput where
  | error (err : String)
  | noItem
  | item (priceItems : Option String)

/-- The collaborators of the synchronizer.  `σ` is the state of everything
outside the process (the feed server and the DynamoDB table); each call may
read and change it, so a collaborator can answer differently on each call.
`unmarshalResp b prev` is `json.Unmarshal(b, &azurePricingResp)` where the
variable holds `prev` before the call. -/
structure World (σ : Type) where
  httpGet : σ → String → HttpGetResult × σ
  unmarshalResp : String → AzurePricingApiResp → Except String AzurePricingApiResp
  GetArnForAzureApiItem : AzurePricingApiItem → String
  dynamoGetItem : σ → String → GetItemOutput × σ
  unmarshalItems : String → Except String (List AzurePricingApiItem)
  marshalItems : List AzurePricingApiItem → Except String String
  dynamoPutItem : σ → String → String → Option String × σ

/-- A Go call either returns or panics. -/
inductive Outcome (α : Type) where
  | ret (a : α)
  | panic

/-- Function `GetItemIfExists` of `extractor/main.go`: `none` is the `nil`
pointer.  Every error is logged and turned into `nil`; the dereference of the
`priceItems` attribute of an item that has no such string panics. -/
def GetItemIfExists {σ : Type} (w : World σ) (s : σ) (id : String) :
    Outcome (Option (List AzurePricingApiItem) × σ) :=
  match w.dynamoGetItem s id with
  | (GetItemOutput.error _, s1) => Outcome.ret (none, s1)
  | (GetItemOutput.noItem, s1) => Outcome.ret (none, s1)
  | (GetItemOutput.item none, _) => Outcome.panic
  | (GetItemOutput.item (some priceItems), s1) =>
    match w.unmarshalItems priceItems with
    | Except.error _ => Outcome.ret (none, s1)
    | Except.ok items => Outcome.ret (some items, s1)

/-- Function `PutPriceItemsWithId` of `extractor/main.go`: `none` is the `nil`
error. -/
def PutPriceItemsWithId {σ : Type} (w : World σ) (s : σ) (id : String)
    (items : List AzurePricingApiItem) : Option String × σ :=
  match w.marshalItems items with
  | Except.error err => (some err, s)
  | Except.ok jsonBlob =>
    match w.dynamoPutItem s id jsonBlob with
    | (some err, s1) => (some err, s1)
    | (none, s1) => (none, s1)

/-- One call of `PutPriceItemsWithId` made by `DumpPricesToDynamo`: the entry
being processed, the identifier, the group passed to the call and the error
it returned. -/
structure WriteAttempt where
  entry : AzurePricingApiItem
  id : String
  items : List AzurePricingApiItem
  err : Option String
deriving DecidableEq, Repr

/-- The `for _, item := range *priceData` loop of `DumpPricesToDynamo`,
carrying the outside state, `errFlag` and the record of the calls of
`PutPriceItemsWithId` made so far.  A panic of `GetItemIfExists` ends the
loop. -/
def dumpLoop {σ : Type} (w : World σ) :
    List AzurePricingApiItem → σ → Bool → List WriteAttempt →
      Outcome (Bool × σ × List WriteAttempt)
  | [], s, errFlag, log => Outcome.ret (errFlag, s, log)
  | item :: rest, s, errFlag, log =>
    if item.Type_ = "Consumption" then
      let id := w.GetArnForAzureApiItem item
      match GetItemIfExists w s id with
      | Outcome.panic => Outcome.panic
      | Outcome.ret (none, s1) =>
        let putItems := mergePriceItems item []
        match PutPriceItemsWithId w s1 id putItems with
        | (some err, s2) => dumpLoop w rest s2 true (log ++ [⟨item, id, putItems, some err⟩])
        | (none, s2) => dumpLoop w rest s2 errFlag (log ++ [⟨item, id, putItems, none⟩])
      | Outcome.ret (some dynamoItems, s1) =>
        let dynamoItems1 := mergePriceItems item dynamoItems
        match PutPriceItemsWithId w s1 id dynamoItems1 with
        | (some err, s2) => dumpLoop w rest s2 true (log ++ [⟨item, id, dynamoItems1, some err⟩])
        | (none, s2) => dumpLoop w rest s2 errFlag (log ++ [⟨item, id, dynamoItems1, none⟩])
    else
      dumpLoop w rest s errFlag log

/-- Function `DumpPricesToDynamo` of `extractor/main.go`: the returned error
(`none` is `nil`), the outside state afterwards and the record of the writes,
or a panic. -/
def DumpPricesToDynamo {σ : Type} (w : World σ) (s : σ) (priceData : List AzurePricingApiItem) :
    Outcome (Option String × σ × List WriteAttempt) :=
  match dumpLoop w priceData s false [] with
  | Outcome.panic => Outcome.panic
  | Outcome.ret (errFlag, s1, log) =>
    if errFlag then Outcome.ret (some "one or more items was unable to be written", s1, log)
    else Outcome.ret (none, s1, log)

/-- The `for azurePricingResp.NextPageLink != nil` loop of `Handler`,
followed by the final `return DumpPricesToDynamo(&mergedItemList)`.  The
first argument bounds the number of pages fetched; `none` means the bound was
reached. -/
def pageLoop {σ : Type} (w : World σ) :
    Nat → σ → AzurePricingApiResp → List AzurePricingApiItem →
      Option (Outcome (Option String × σ × List WriteAttempt))
  | fuel, s, azurePricingResp, mergedItemList =>
    match azurePricingResp.NextPageLink with
    | none => some (DumpPricesToDynamo w s mergedItemList)
    | some link =>
      match fuel with
      | 0 => none
      | fuel1 + 1 =>
        match w.httpGet s link with
        | (HttpGetResult.transportError err, s1) => some (Outcome.ret (some err, s1, []))
        | (HttpGetResult.response StatusCode Body, s1) =>
          if StatusCode > 299 then
            some (Outcome.ret (none, s1, []))
          else
            match Body with
            | Except.error err => some (Outcome.ret (some err, s1, []))
            | Except.ok b =>
              match w.unmarshalResp b azurePricingResp with
              | Except.error err => some (Outcome.ret (some err, s1, []))
              | Except.ok azurePricingResp1 =>
                pageLoop w fuel1 s1 azurePricingResp1
                  (mergedItemList ++ azurePricingResp1.Items)

/-- Function `Handler` of `extractor/main.go`.  `fuel` bounds the number of pages
fetched after the first. -/
def Handler {σ : Type} (w : World σ) (fuel : Nat) (s : σ) :
    Option (Outcome (Option String × σ × List WriteAttempt)) :=
  let mergedItemList : List AzurePricingApiItem := []
  let azurePricingResp : AzurePricingApiResp := ⟨[], none⟩
  match w.httpGet s "https://prices.azure.com/api/retail/prices" with
  | (HttpGetResult.transportError err, s1) => some (Outcome.ret (some err, s1, []))
  | (HttpGetResult.response StatusCode Body, s1) =>
    if StatusCode > 299 then
      some (Outcome.ret (none, s1, []))
    else
      match Body with
      | Except.error err => some (Outcome.ret (some err, s1, []))
      | Except.ok b =>
        match w.unmarshalResp b azurePricingResp with
        | Except.error err => some (Outcome.ret (some err, s1, []))
        | Except.ok azurePricingResp1 =>
          pageLoop w fuel s1 azurePricingResp1 (mergedItemList ++ azurePricingResp1.Items)

/-! ## Specification-side definitions for the synchronizer -/

/-- The group the store holds under `id` when read at state `s`, as spec
section 4.3 has it loaded: the decoded `priceItems` of the item, and the empty
sequence when the read yields no group. -/
def specLoadGroup {σ : Type} (w : World σ) (s : σ) (id : String) : List AzurePricingApiItem :=
  match (w.dynamoGetItem s id).1 with
  | GetItemOutput.item (some priceItems) =>
    match w.unmarshalItems priceItems with
    | Except.ok items => items
    | Except.error _ => []
  | _ => []

/-- What spec section 4.3 asks for one retained entry, on the operations of
the store: derive the identifier, load the current group, merge the entry in,
encode the merged group and put it under the identifier.  Returns the record
of the write, with the error of the encoding or of the put, and the state
afterwards. -/
def specPersistEntry {σ : Type} (w : World σ) (s : σ) (item : AzurePricingApiItem) :
    WriteAttempt × σ :=
  let id := w.GetArnForAzureApiItem item
  let merged := mergePriceItems item (specLoadGroup w s id)
  let s1 := (w.dynamoGetItem s id).2
  match w.marshalItems merged with
  | Except.error err => (⟨item, id, merged, some err⟩, s1)
  | Except.ok jsonBlob =>
    (⟨item, id, merged, (w.dynamoPutItem s1 id jsonBlob).1⟩, (w.dynamoPutItem s1 id jsonBlob).2)

/-- Every item the store returns carries a string `priceItems` attribute, as
every item written by `PutPriceItemsWithId` does. -/
def ItemsCarryPriceItems {σ : Type} (w : World σ) : Prop :=
  ∀ (s : σ) (id : String), (w.dynamoGetItem s id).1 ≠ GetItemOutput.item none

end Extractor

namespace Api

/-- The `float64` operations the plan pricer uses: the zero value, `+`, `*`
and the conversion of an untyped integer constant. -/
structure Float64Ops (F : Type) where
  zero : F
  add : F → F → F
  mul : F → F → F
  ofNat : Nat → F

/-- Hours in a year, constant `YEAR_HOURS`. -/
def YEAR_HOURS : Nat := 8760

/-- Hours in a month, constant `MONTH_HOURS`. -/
def MONTH_HOURS : Nat := 730

/-- A value of type `interface{}` as `encoding/json` decodes it. -/
inductive JsonValue (F : Type) where
  | null
  | bool (b : Bool)
  | number (n : F)
  | string (s : String)
  | array (elems : List (JsonValue F))
  | object (fields : List (String × JsonValue F))

/-- Struct `Change`. -/
structure Change (F : Type) where
  After : JsonValue F

/-- Struct `ResourceChange`. -/
structure ResourceChange (F : Type) where
  Type_ : String
  Provider : String
  Change : Change F

/-- Struct `PlanFile`. -/
structure PlanFile (F : Type) where
  ResourceChanges : List (ResourceChange F)

/-- Struct `ApiResp`. -/
structure ApiResp (F : Type) where
  EstimatedHourlyCost : F
  EstimatedMonthlyCost : F
  EstimatedYearlyCost : F

/-- Struct `pricers.VirtualMachine`, the two fields the source sets. -/
structure VirtualMachine where
  Size : String
  Location : String
deriving DecidableEq, Repr

/-- The fields of `events.APIGatewayProxyResponse` the source sets. -/
structure Response where
  StatusCode : Nat
  IsBase64Encoded : Bool
  Body : String
  Headers : List (String × String)
deriving DecidableEq, Repr

/-- The field of `events.APIGatewayProxyRequest` the source reads. -/
structure Request where
  Body : String
deriving DecidableEq, Repr

/-- A Go call either returns or panics. -/
inductive Outcome (α : Type) where
  | ret (a : α)
  | panic

/-- The collaborators of the plan pricer: `json.Unmarshal` into a `PlanFile`,
the method `GetHourlyPrice` of `pricers.VirtualMachine`, and `json.Marshal`
of an `ApiResp` with its two results, the bytes and the error (`none` is
`nil`). -/
structure Env (F : Type) where
  ops : Float64Ops F
  unmarshalPlan : String → Except String (PlanFile F)
  GetHourlyPrice : VirtualMachine → F
  marshalResp : ApiResp F → String × Option String

/-- Type assertion `v.(map[string]interface{})`; `none` is the panic. -/
def assertMap {F : Type} : JsonValue F → Option (List (String × JsonValue F))
  | JsonValue.object fields => some fields
  | _ => none

/-- Type assertion `v.(string)`; `none` is the panic. -/
def assertString {F : Type} : JsonValue F → Option String
  | JsonValue.string s => some s
  | _ => none

/-- Map index `m[key]`: the zero value `nil` when the key is absent. -/
def mapIndex {F : Type} (m : List (String × JsonValue F)) (key : String) : JsonValue F :=
  match m.lookup key with
  | some v => v
  | none => JsonValue.null

/-- The expression `change.Change.After.(map[string]interface{})[key].(string)`. -/
def afterString {F : Type} (change : ResourceChange F) (key : String) : Option String :=
  match assertMap change.Change.After with
  | none => none
  | some m => assertString (mapIndex m key)

/-- The `for _, change := range pf.ResourceChanges` loop of `PricePlanFile`,
carrying `hourlyPrice`. -/
def priceLoop {F : Type} (env : Env F) : List (ResourceChange F) → F → Outcome F
  | [], hourlyPrice => Outcome.ret hourlyPrice
  | change :: rest, hourlyPrice =>
    if change.Provider = "registry.terraform.io/hashicorp/azurerm" then
      if change.Type_ = "azurerm_linux_virtual_machine" then
        match afterString change "size" with
        | none => Outcome.panic
        | some size =>
          match afterString change "location" with
          | none => Outcome.panic
          | some location =>
            let vm : VirtualMachine := ⟨size, location⟩
            priceLoop env rest (env.ops.add hourlyPrice (env.GetHourlyPrice vm))
      else
        priceLoop env rest hourlyPrice
    else
      priceLoop env rest hourlyPrice

/-- Function `PricePlanFile` of `api/main.go`: the price and the error (`none` is
`nil`), or a panic. -/
def PricePlanFile {F : Type} (env : Env F) (jsonBlob : String) : Outcome (F × Option String) :=
  match env.unmarshalPlan jsonBlob with
  | Except.error err => Outcome.ret (env.ops.zero, some err)
  | Except.ok pf =>
    match priceLoop env pf.ResourceChanges env.ops.zero with
    | Outcome.panic => Outcome.panic
    | Outcome.ret hourlyPrice => Outcome.ret (hourlyPrice, none)

/-- The response built in both error branches of `Handler`.  The format
string of the source has no closing brace. -/
def errorResponse (err : String) : Response :=
  { StatusCode := 500
    IsBase64Encoded := false
    Body := "\x7b\"error\":\"" ++ err ++ "\""
    Headers := [("Content-Type", "application/json")] }

/-- Function `Handler` of `api/main.go`: the response and the error (`none` is `nil`),
or a panic.  The variable `resp` is assigned up to three times: `resp1` and
`resp2` are its values after the two error checks, and the last assignment
overwrites every field. -/
def Handler {F : Type} (env : Env F) (request : Request) : Outcome (Response × Option String) :=
  let resp0 : Response := ⟨0, false, "", []⟩
  match PricePlanFile env request.Body with
  | Outcome.panic => Outcome.panic
  | Outcome.ret (price, err) =>
    let resp1 : Response :=
      match err with
      | some e => errorResponse e
      | none => resp0
    let r : ApiResp F :=
      { EstimatedHourlyCost := price
        EstimatedMonthlyCost := env.ops.mul price (env.ops.ofNat MONTH_HOURS)
        EstimatedYearlyCost := env.ops.mul price (env.ops.ofNat YEAR_HOURS) }
    match env.marshalResp r with
    | (b, err1) =>
      let resp2 : Response :=
        match err1 with
        | some e => errorResponse e
        | none => resp1
      let resp3 : Response :=
        { resp2 with
          StatusCode := 200
          IsBase64Encoded := false
          Body := b
          Headers := [("Content-Type", "application/json")] }
      Outcome.ret (resp3, none)

/-! ## Specification-side definitions for the plan pricer -/

/-- A change the spec calls priced: its provider tag is the target provider
and its type tag is the supported one. -/
def isPriced {F : Type} (change : ResourceChange F) : Bool :=
  decide (change.Provider = "registry.terraform.io/hashicorp/azurerm") &&
    decide (change.Type_ = "azurerm_linux_virtual_machine")

/-- A change carries string `size` and `location` attributes in its after
state. -/
def CarriesSizeAndLocation {F : Type} (change : ResourceChange F) : Prop :=
  ∃ (fields : List (String × JsonValue F)) (size location : String),
    change.Change.After = JsonValue.object fields ∧
    fields.lookup "size" = some (JsonValue.string size) ∧
    fields.lookup "location" = some (JsonValue.string location)

/-- The string attribute `key` of the after state of a change, empty when the
change has none. -/
def stringAttr {F : Type} (change : ResourceChange F) (key : String) : String :=
  match afterString change key with
  | some v => v
  | none => ""

/-- The pricing rule's hourly rate of a change: `GetHourlyPrice` of the
machine with the size and location of the change. -/
def rateOf {F : Type} (env : Env F) (change : ResourceChange F) : F :=
  env.GetHourlyPrice ⟨stringAttr change "size", stringAttr change "location"⟩

/-- The sum, in plan order and starting from `start`, of the hourly rates of
the priced changes. -/
def specHourlyTotal {F : Type} (env : Env F) (changes : List (ResourceChange F)) (start : F) : F :=
  (changes.filter isPriced).foldl (fun total change => env.ops.add total (rateOf env change)) start

/-! ## Sample collaborators -/

/-- A plan with one supported virtual machine and one change of another
provider. -/
def samplePlan : PlanFile Int :=
  ⟨[⟨"azurerm_linux_virtual_machine", "registry.terraform.io/hashicorp/azurerm",
      ⟨JsonValue.object [("size", JsonValue.string "Standard_B1s"),
        ("location", JsonValue.string "eastus")]⟩⟩,
    ⟨"aws_instance", "registry.terraform.io/hashicorp/aws", ⟨JsonValue.null⟩⟩]⟩

/-- The plan holding only the virtual machine of `samplePlan`. -/
def singleMachinePlan : PlanFile Int :=
  ⟨[⟨"azurerm_linux_virtual_machine", "registry.terraform.io/hashicorp/azurerm",
      ⟨JsonValue.object [("size", JsonValue.string "Standard_B1s"),
        ("location", JsonValue.string "eastus")]⟩⟩]⟩

/-- Collaborators over the integers: two request bodies decode to the sample
plans and every other body is malformed; the rate of the sample machine is 12. -/
def sampleEnv : Env Int :=
  { ops := ⟨0, fun a b => a + b, fun a b => a * b, fun n => (n : Int)⟩
    unmarshalPlan := fun body =>
      if body = "two changes" then Except.ok samplePlan
      else if body = "one machine" then Except.ok singleMachinePlan
      else Except.error "invalid character"
    GetHourlyPrice := fun vm => if vm.Size = "Standard_B1s" then 12 else 0
    marshalResp := fun r =>
      (String.intercalate "," [toString r.EstimatedHourlyCost,
        toString r.EstimatedMonthlyCost, toString r.EstimatedYearlyCost], none) }

/-- A sample carrier with one non-finite value, standing for `+Inf`. -/
inductive SampleFloat where
  | finite (n : Int)
  | posInf
deriving DecidableEq, Repr

/-- Addition of the sample carrier: a sum with `+Inf` is `+Inf`. -/
def SampleFloat.add : SampleFloat → SampleFloat → SampleFloat
  | SampleFloat.finite a, SampleFloat.finite b => SampleFloat.finite (a + b)
  | _, _ => SampleFloat.posInf

/-- Multiplication of the sample carrier, used with positive factors only: a
product with `+Inf` is `+Inf`. -/
def SampleFloat.mul : SampleFloat → SampleFloat → SampleFloat
  | SampleFloat.finite a, SampleFloat.finite b => SampleFloat.finite (a * b)
  | _, _ => SampleFloat.posInf

/-- Collaborators whose pricing rule returns `+Inf`, and whose `json.Marshal`
rejects a non-finite value as `encoding/json` does: it returns no bytes and
an error. -/
def nonFiniteEnv : Env SampleFloat :=
  { ops := ⟨SampleFloat.finite 0, SampleFloat.add, SampleFloat.mul,
      fun n => SampleFloat.finite (n : Int)⟩
    unmarshalPlan := fun body =>
      if body = "one machine" then
        Except.ok ⟨[⟨"azurerm_linux_virtual_machine", "registry.terraform.io/hashicorp/azurerm",
          ⟨JsonValue.object [("size", JsonValue.string "Standard_B1s"),
            ("location", JsonValue.string "eastus")]⟩⟩]⟩
      else Except.error "invalid character"
    GetHourlyPrice := fun _ => SampleFloat.posInf
    marshalResp := fun r =>
      match r.EstimatedHourlyCost, r.EstimatedMonthlyCost, r.EstimatedYearlyCost with
      | SampleFloat.finite a, SampleFloat.finite b, SampleFloat.finite c =>
        (String.intercalate "," [toString a, toString b, toString c], none)
      | _, _, _ => ("", some "json: unsupported value: +Inf") }

end Api

namespace Extractor

/-! ## Sample collaborators -/

/-- A world without state: the feed answers each URL with `feed`, the table
answers each read with `read`, and a write fails exactly for the identifier
"arn:disk". -/
def staticWorld (feed : String → HttpGetResult) (read : String → GetItemOutput) : World Unit :=
  { httpGet := fun s url => (feed url, s)
    unmarshalResp := fun b _ =>
      if b = "last page" then Except.ok ⟨[⟨"Consumption", "A", "vm"⟩], none⟩
      else Except.error "invalid character"
    GetArnForAzureApiItem := fun item => "arn:" ++ item.Payload
    dynamoGetItem := fun s id => (read id, s)
    unmarshalItems := fun _ => Except.error "unexpected end of JSON input"
    marshalItems := fun items => Except.ok (String.join (items.map (fun e => e.MeterID)))
    dynamoPutItem := fun s id _ =>
      if id = "arn:disk" then (some "ProvisionedThroughputExceededException", s) else (none, s) }

/-- A feed whose every page answers with status 500 and no transport error. -/
def failingFeed : String → HttpGetResult :=
  fun _ => HttpGetResult.response 500 (Except.ok "Internal Server Error")

/-- A table whose every read fails. -/
def failingRead : String → GetItemOutput :=
  fun _ => GetItemOutput.error "InternalServerError"

/-- A table holding no item. -/
def emptyRead : String → GetItemOutput :=
  fun _ => GetItemOutput.noItem

/-- A table whose items have an `id` attribute only. -/
def bareItemRead : String → GetItemOutput :=
  fun _ => GetItemOutput.item none

/-- A listing of three "Consumption" entries, the second of which the sample
store fails to write, and one entry of another type. -/
def sampleListing : List AzurePricingApiItem :=
  [⟨"Consumption", "A", "vm"⟩, ⟨"Consumption", "B", "disk"⟩, ⟨"Reservation", "C", "vm"⟩,
    ⟨"Consumption", "D", "net"⟩]

end Extractor

namespace Extractor

/-! ## The merge algorithm -/

/-- The scan loop visiting the suffix `r` of `p ++ r` from index `p.length`
finds nothing when no entry of `r` carries the meter identifier. -/
theorem mergeScan_unseen (x : AzurePricingApiItem) (d : List AzurePricingApiItem) :
    ∀ (r : List AzurePricingApiItem) (n : Nat),
      (∀ a ∈ r, a.MeterID ≠ x.MeterID) → mergeScan x d r n = (d, false) := by
  intro r
  induction r with
  | nil => intro n _; rfl
  | cons a r ih =>
    intro n h
    have ha : a.MeterID ≠ x.MeterID := h a (List.mem_cons_self _ _)
    simp only [mergeScan, if_neg ha]
    exact ih (n + 1) (fun b hb => h b (List.mem_cons_of_mem _ hb))

/-- The scan loop stops at the first entry carrying the meter identifier and
overwrites exactly that index. -/
theorem mergeScan_seen (x e : AzurePricingApiItem) (d t : List AzurePricingApiItem) :
    ∀ (q : List AzurePricingApiItem) (n : Nat),
      (∀ a ∈ q, a.MeterID ≠ x.MeterID) → e.MeterID = x.MeterID →
        mergeScan x d (q ++ e :: t) n = (d.set (n + q.length) x, true) := by
  intro q
  induction q with
  | nil => intro n _ he; simp [mergeScan, he]
  | cons a q ih =>
    intro n h he
    have ha : a.MeterID ≠ x.MeterID := h a (List.mem_cons_self _ _)
    have step : mergeScan x d (a :: q ++ e :: t) n = mergeScan x d (q ++ e :: t) (n + 1) := by
      show mergeScan x d (a :: (q ++ e :: t)) n = _
      simp only [mergeScan, if_neg ha]
    rw [step, ih (n + 1) (fun b hb => h b (List.mem_cons_of_mem _ hb)) he]
    simp [Nat.add_comm, Nat.add_left_comm]

/-- Merging into a group whose first entry with the meter identifier of `x`
is `e`, after the prefix `q`, overwrites `e` and nothing else. -/
theorem mergePriceItems_seen (x e : AzurePricingApiItem) (q t : List AzurePricingApiItem)
    (hq : ∀ a ∈ q, a.MeterID ≠ x.MeterID) (he : e.MeterID = x.MeterID) :
    mergePriceItems x (q ++ e :: t) = q ++ x :: t := by
  unfold mergePriceItems
  have hlen : (q ++ e :: t).length > 0 := by simp
  rw [if_pos hlen, mergeScan_seen x e (q ++ e :: t) t q 0 hq he]
  simp

/-- Merging into a group without the meter identifier of `x` appends `x`. -/
theorem mergePriceItems_unseen (x : AzurePricingApiItem) (g : List AzurePricingApiItem)
    (hg : ∀ a ∈ g, a.MeterID ≠ x.MeterID) :
    mergePriceItems x g = g ++ [x] := by
  unfold mergePriceItems
  by_cases hlen : g.length > 0
  · rw [if_pos hlen, mergeScan_unseen x g g 0 hg]
    simp
  · rw [if_neg hlen]
    have : g = [] := List.length_eq_zero.mp (by omega)
    simp [this]

/-- A group holding the meter identifier splits at its first such entry. -/
theorem split_at_first_meter (x : AzurePricingApiItem) :
    ∀ g : List AzurePricingApiItem, (∃ a ∈ g, a.MeterID = x.MeterID) →
      ∃ q e t, g = q ++ e :: t ∧ (∀ a ∈ q, a.MeterID ≠ x.MeterID) ∧ e.MeterID = x.MeterID := by
  intro g
  induction g with
  | nil => rintro ⟨a, ha, _⟩; cases ha
  | cons b g ih =>
    rintro ⟨a, ha, hax⟩
    by_cases hb : b.MeterID = x.MeterID
    · exact ⟨[], b, g, rfl, by simp, hb⟩
    · have hmem : a ∈ g := by
        rcases List.mem_cons.mp ha with h | h
        · subst h; exact absurd hax hb
        · exact h
      obtain ⟨q, e, t, hg, hq, he⟩ := ih ⟨a, hmem, hax⟩
      refine ⟨b :: q, e, t, by simp [hg], ?_, he⟩
      intro c hc
      rcases List.mem_cons.mp hc with h | h
      · subst h; exact hb
      · exact hq c h

/-- The result of a merge in every case: an overwrite at the first entry with
the meter identifier, or an append. -/
theorem mergePriceItems_cases (x : AzurePricingApiItem) (g : List AzurePricingApiItem) :
    (∃ q e t, g = q ++ e :: t ∧ (∀ a ∈ q, a.MeterID ≠ x.MeterID) ∧ e.MeterID = x.MeterID ∧
        mergePriceItems x g = q ++ x :: t) ∨
    ((∀ a ∈ g, a.MeterID ≠ x.MeterID) ∧ mergePriceItems x g = g ++ [x]) := by
  by_cases h : ∃ a ∈ g, a.MeterID = x.MeterID
  · obtain ⟨q, e, t, hg, hq, he⟩ := split_at_first_meter x g h
    left
    exact ⟨q, e, t, hg, hq, he, by rw [hg]; exact mergePriceItems_seen x e q t hq he⟩
  · right
    have hg : ∀ a ∈ g, a.MeterID ≠ x.MeterID := fun a ha hax => h ⟨a, ha, hax⟩
    exact ⟨hg, mergePriceItems_unseen x g hg⟩

/-- Merging where the first entry with the meter identifier sits at index `i`
is the slice assignment `g[i] = x`. -/
theorem mergePriceItems_eq_set (x : AzurePricingApiItem) (g : List AzurePricingApiItem)
    (i : Nat) (hi : i < g.length) (hmatch : g[i].MeterID = x.MeterID)
    (hfirst : ∀ (j : Nat) (hj : j < g.length), j < i → g[j].MeterID ≠ x.MeterID) :
    mergePriceItems x g = g.set i x := by
  have hsplit : g = g.take i ++ g[i] :: g.drop (i + 1) := by
    rw [← List.drop_eq_getElem_cons hi, List.take_append_drop]
  have hpre : ∀ a ∈ g.take i, a.MeterID ≠ x.MeterID := by
    intro a ha
    obtain ⟨j, hj, rfl⟩ := List.getElem_of_mem ha
    have hj1 : j < i := by
      have := hj
      simp only [List.length_take] at this
      omega
    have hj2 : j < g.length := by omega
    rw [List.getElem_take]
    exact hfirst j hj2 hj1
  have hmerge := mergePriceItems_seen x g[i] (g.take i) (g.drop (i + 1)) hpre hmatch
  rw [← hsplit] at hmerge
  rw [hmerge, List.set_eq_take_append_cons_drop, if_pos hi]

/-- C1: for a new entry `x` and a group `g` whose first entry with the meter
identifier of `x` sits at index `i`, `mergePriceItems x g` has the length of
`g`, holds `x` at index `i`, and holds at every other index exactly what `g`
holds there. -/
theorem mergePriceItems_replaces_first_match (x : AzurePricingApiItem)
    (g : List AzurePricingApiItem) (i : Nat) (hi : i < g.length)
    (hmatch : g[i].MeterID = x.MeterID)
    (hfirst : ∀ (j : Nat) (hj : j < g.length), j < i → g[j].MeterID ≠ x.MeterID) :
    (mergePriceItems x g).length = g.length ∧
    (mergePriceItems x g)[i]? = some x ∧
    ∀ j : Nat, j ≠ i → (mergePriceItems x g)[j]? = g[j]? := by
  rw [mergePriceItems_eq_set x g i hi hmatch hfirst]
  refine ⟨List.length_set _ _ _, List.getElem?_set_self hi, ?_⟩
  intro j hj
  exact List.getElem?_set_ne (Ne.symm hj)

/-- Witness of C1: a group with meters B, A, A and a new entry with meter A. -/
theorem mergePriceItems_replaces_first_match_witness :
    (mergePriceItems ⟨"Consumption", "A", "new"⟩
        [⟨"Consumption", "B", "b"⟩, ⟨"Consumption", "A", "old"⟩, ⟨"Consumption", "A", "dup"⟩]).length
      = 3 ∧
    (mergePriceItems ⟨"Consumption", "A", "new"⟩
        [⟨"Consumption", "B", "b"⟩, ⟨"Consumption", "A", "old"⟩, ⟨"Consumption", "A", "dup"⟩])[1]?
      = some ⟨"Consumption", "A", "new"⟩ ∧
    ∀ j : Nat, j ≠ 1 →
      (mergePriceItems ⟨"Consumption", "A", "new"⟩
        [⟨"Consumption", "B", "b"⟩, ⟨"Consumption", "A", "old"⟩, ⟨"Consumption", "A", "dup"⟩])[j]?
      = ([⟨"Consumption", "B", "b"⟩, ⟨"Consumption", "A", "old"⟩, ⟨"Consumption", "A", "dup"⟩] :
          List AzurePricingApiItem)[j]? :=
  mergePriceItems_replaces_first_match ⟨"Consumption", "A", "new"⟩
    [⟨"Consumption", "B", "b"⟩, ⟨"Consumption", "A", "old"⟩, ⟨"Consumption", "A", "dup"⟩] 1
    (by decide) (by decide)
    (by
      intro j hj hlt
      have hj0 : j = 0 := by omega
      subst hj0
      simp)

/-- C2: for a new entry `x` and a group `g`, empty or not, in which no entry
has the meter identifier of `x`, `mergePriceItems x g` is `g` followed by `x`,
one entry longer than `g`; merging into the empty group gives `[x]`. -/
theorem mergePriceItems_appends_new_meter (x : AzurePricingApiItem)
    (g : List AzurePricingApiItem) (hnew : ∀ e ∈ g, e.MeterID ≠ x.MeterID) :
    mergePriceItems x g = g ++ [x] ∧
    (mergePriceItems x g).length = g.length + 1 ∧
    mergePriceItems x [] = [x] := by
  refine ⟨mergePriceItems_unseen x g hnew, ?_, rfl⟩
  rw [mergePriceItems_unseen x g hnew]
  simp

/-- Witness of C2: a group with meters A, B and a new entry with meter C. -/
theorem mergePriceItems_appends_new_meter_witness :
    mergePriceItems ⟨"Consumption", "C", "c"⟩
        [⟨"Consumption", "A", "a"⟩, ⟨"Consumption", "B", "b"⟩]
      = [⟨"Consumption", "A", "a"⟩, ⟨"Consumption", "B", "b"⟩] ++ [⟨"Consumption", "C", "c"⟩] ∧
    (mergePriceItems ⟨"Consumption", "C", "c"⟩
        [⟨"Consumption", "A", "a"⟩, ⟨"Consumption", "B", "b"⟩]).length
      = ([⟨"Consumption", "A", "a"⟩, ⟨"Consumption", "B", "b"⟩] :
          List AzurePricingApiItem).length + 1 ∧
    mergePriceItems ⟨"Consumption", "C", "c"⟩ [] = [⟨"Consumption", "C", "c"⟩] :=
  mergePriceItems_appends_new_meter ⟨"Consumption", "C", "c"⟩
    [⟨"Consumption", "A", "a"⟩, ⟨"Consumption", "B", "b"⟩] (by decide)

/-- The merged group always holds the meter identifier of the new entry. -/
theorem meter_mem_mergePriceItems (x : AzurePricingApiItem) (g : List AzurePricingApiItem) :
    x.MeterID ∈ (mergePriceItems x g).map (fun e => e.MeterID) := by
  rcases mergePriceItems_cases x g with ⟨q, e, t, _, _, _, hm⟩ | ⟨_, hm⟩
  · rw [hm]; simp
  · rw [hm]; simp

/-- C3: if the entries of `g` (possibly empty) have pairwise distinct meter
identifiers, so do the entries of `mergePriceItems x g`, and exactly one of
them has the meter identifier of `x`. -/
theorem mergePriceItems_preserves_distinct_meters (x : AzurePricingApiItem)
    (g : List AzurePricingApiItem) (hg : (g.map (fun e => e.MeterID)).Nodup) :
    ((mergePriceItems x g).map (fun e => e.MeterID)).Nodup ∧
    ((mergePriceItems x g).map (fun e => e.MeterID)).count x.MeterID = 1 := by
  have hnodup : ((mergePriceItems x g).map (fun e => e.MeterID)).Nodup := by
    rcases mergePriceItems_cases x g with ⟨q, e, t, hsplit, _, he, hm⟩ | ⟨hnew, hm⟩
    · have hsame : (mergePriceItems x g).map (fun e => e.MeterID)
          = g.map (fun e => e.MeterID) := by
        rw [hm, hsplit]; simp [he]
      rw [hsame]; exact hg
    · rw [hm, List.map_append, List.nodup_append]
      refine ⟨hg, by simp, ?_⟩
      intro m hm1 hm2
      simp only [List.map_cons, List.map_nil, List.mem_singleton] at hm2
      obtain ⟨a, ha, rfl⟩ := List.mem_map.mp hm1
      exact hnew a ha hm2
  exact ⟨hnodup, List.count_eq_one_of_mem hnodup (meter_mem_mergePriceItems x g)⟩

/-- Witness of C3: a group with meters A, B and a new entry with meter B. -/
theorem mergePriceItems_preserves_distinct_meters_witness :
    ((mergePriceItems ⟨"Consumption", "B", "new"⟩
        [⟨"Consumption", "A", "a"⟩, ⟨"Consumption", "B", "b"⟩]).map (fun e => e.MeterID)).Nodup ∧
    ((mergePriceItems ⟨"Consumption", "B", "new"⟩
        [⟨"Consumption", "A", "a"⟩, ⟨"Consumption", "B", "b"⟩]).map
          (fun e => e.MeterID)).count "B" = 1 :=
  mergePriceItems_preserves_distinct_meters ⟨"Consumption", "B", "new"⟩
    [⟨"Consumption", "A", "a"⟩, ⟨"Consumption", "B", "b"⟩] (by decide)

/-- C4: merging the same entry twice gives what merging it once gives, for
every entry and every group, empty or not. -/
theorem mergePriceItems_idempotent (x : AzurePricingApiItem) (g : List AzurePricingApiItem) :
    mergePriceItems x (mergePriceItems x g) = mergePriceItems x g := by
  rcases mergePriceItems_cases x g with ⟨q, e, t, _, hq, _, hm⟩ | ⟨hnew, hm⟩
  · rw [hm]
    exact mergePriceItems_seen x x q t hq rfl
  · rw [hm]
    exact mergePriceItems_seen x x g [] hnew rfl

/-! ## The batch persistence loop -/

/-- On a store whose items carry `priceItems`, `GetItemIfExists` returns, and
what it returns is the loaded group, `nil` standing for the empty one. -/
theorem GetItemIfExists_of_items {σ : Type} (w : World σ) (hitems : ItemsCarryPriceItems w)
    (s : σ) (id : String) :
    ∃ loaded : Option (List AzurePricingApiItem),
      GetItemIfExists w s id = Outcome.ret (loaded, (w.dynamoGetItem s id).2) ∧
      (match loaded with
        | none => []
        | some d => d) = specLoadGroup w s id := by
  have hne := hitems s id
  unfold GetItemIfExists specLoadGroup
  rcases hget : w.dynamoGetItem s id with ⟨out, s1⟩
  rw [hget] at hne
  cases out with
  | error e => exact ⟨none, ⟨rfl, rfl⟩⟩
  | noItem => exact ⟨none, ⟨rfl, rfl⟩⟩
  | item blob =>
    cases blob with
    | none => exact absurd rfl hne
    | some priceItems =>
      simp only []
      cases hun : w.unmarshalItems priceItems with
      | error e => exact ⟨none, ⟨rfl, rfl⟩⟩
      | ok items => exact ⟨some items, ⟨rfl, rfl⟩⟩

/-- The record and the state `specPersistEntry` gives are those of
`PutPriceItemsWithId` on the merged group, called at the state the read
leaves. -/
theorem specPersistEntry_eq {σ : Type} (w : World σ) (s : σ) (item : AzurePricingApiItem) :
    specPersistEntry w s item
      = (⟨item, w.GetArnForAzureApiItem item,
            mergePriceItems item (specLoadGroup w s (w.GetArnForAzureApiItem item)),
            (PutPriceItemsWithId w (w.dynamoGetItem s (w.GetArnForAzureApiItem item)).2
              (w.GetArnForAzureApiItem item)
              (mergePriceItems item (specLoadGroup w s (w.GetArnForAzureApiItem item)))).1⟩,
          (PutPriceItemsWithId w (w.dynamoGetItem s (w.GetArnForAzureApiItem item)).2
              (w.GetArnForAzureApiItem item)
              (mergePriceItems item (specLoadGroup w s (w.GetArnForAzureApiItem item)))).2) := by
  unfold specPersistEntry PutPriceItemsWithId
  dsimp only
  rcases hm : w.marshalItems
      (mergePriceItems item (specLoadGroup w s (w.GetArnForAzureApiItem item))) with e | blob
  · rfl
  · dsimp only
    rcases hp : w.dynamoPutItem (w.dynamoGetItem s (w.GetArnForAzureApiItem item)).2
        (w.GetArnForAzureApiItem item) blob with ⟨_ | e, s2⟩ <;> rfl

/-- One turn of the loop on an entry of type "Consumption": the write of
`specPersistEntry` is recorded, the flag is raised when it failed, and the
loop goes on from the state it leaves. -/
theorem dumpLoop_cons_consumption {σ : Type} (w : World σ) (hitems : ItemsCarryPriceItems w)
    (item : AzurePricingApiItem) (rest : List AzurePricingApiItem) (s : σ) (errFlag : Bool)
    (log : List WriteAttempt) (hc : item.Type_ = "Consumption") :
    dumpLoop w (item :: rest) s errFlag log
      = dumpLoop w rest (specPersistEntry w s item).2
          (errFlag || (specPersistEntry w s item).1.err.isSome)
          (log ++ [(specPersistEntry w s item).1]) := by
  obtain ⟨loaded, hget, hload⟩ := GetItemIfExists_of_items w hitems s (w.GetArnForAzureApiItem item)
  rw [specPersistEntry_eq, ← hload]
  cases loaded with
  | none =>
    simp only [dumpLoop, if_pos hc, hget]
    rcases PutPriceItemsWithId w (w.dynamoGetItem s (w.GetArnForAzureApiItem item)).2
        (w.GetArnForAzureApiItem item) (mergePriceItems item []) with ⟨_ | e, s2⟩
    · simp
    · simp
  | some d =>
    simp only [dumpLoop, if_pos hc, hget]
    rcases PutPriceItemsWithId w (w.dynamoGetItem s (w.GetArnForAzureApiItem item)).2
        (w.GetArnForAzureApiItem item) (mergePriceItems item d) with ⟨_ | e, s2⟩
    · simp
    · simp

/-- One turn of the loop on an entry of another type changes nothing. -/
theorem dumpLoop_cons_other {σ : Type} (w : World σ)
    (item : AzurePricingApiItem) (rest : List AzurePricingApiItem) (s : σ) (errFlag : Bool)
    (log : List WriteAttempt) (hc : ¬ item.Type_ = "Consumption") :
    dumpLoop w (item :: rest) s errFlag log = dumpLoop w rest s errFlag log := by
  simp only [dumpLoop, if_neg hc]

/-- On a store whose items carry `priceItems` the loop returns; it adds one
record per entry of type "Consumption", in order, and the flag ends up set
exactly when it was set before or one of the recorded writes failed. -/
theorem dumpLoop_spec {σ : Type} (w : World σ) (hitems : ItemsCarryPriceItems w) :
    ∀ (l : List AzurePricingApiItem) (s : σ) (errFlag : Bool) (log : List WriteAttempt),
      ∃ (errFlag1 : Bool) (s1 : σ) (new : List WriteAttempt),
        dumpLoop w l s errFlag log = Outcome.ret (errFlag1, s1, log ++ new) ∧
        new.map (fun a => a.entry) = l.filter (fun e => decide (e.Type_ = "Consumption")) ∧
        errFlag1 = (errFlag || new.any (fun a => a.err.isSome)) := by
  intro l
  induction l with
  | nil => intro s errFlag log; exact ⟨errFlag, s, [], by simp [dumpLoop]⟩
  | cons item rest ih =>
    intro s errFlag log
    by_cases hc : item.Type_ = "Consumption"
    · obtain ⟨f1, s1, new, h1, h2, h3⟩ := ih (specPersistEntry w s item).2
        (errFlag || (specPersistEntry w s item).1.err.isSome)
        (log ++ [(specPersistEntry w s item).1])
      refine ⟨f1, s1, (specPersistEntry w s item).1 :: new, ?_, ?_, ?_⟩
      · rw [dumpLoop_cons_consumption w hitems item rest s errFlag log hc, h1]
        simp
      · rw [specPersistEntry_eq]
        simp [hc, h2]
      · rw [h3]; simp [Bool.or_assoc]
    · obtain ⟨f1, s1, new, h1, h2, h3⟩ := ih s errFlag log
      refine ⟨f1, s1, new, ?_, ?_, h3⟩
      · rw [dumpLoop_cons_other w item rest s errFlag log hc, h1]
      · simp [hc, h2]

/-- The loop over a concatenation runs the second part from the state, flag
and record the first part leaves. -/
theorem dumpLoop_append {σ : Type} (w : World σ) (hitems : ItemsCarryPriceItems w) :
    ∀ (l1 l2 : List AzurePricingApiItem) (s : σ) (errFlag : Bool) (log : List WriteAttempt)
      (errFlag1 : Bool) (s1 : σ) (log1 : List WriteAttempt),
      dumpLoop w l1 s errFlag log = Outcome.ret (errFlag1, s1, log1) →
      dumpLoop w (l1 ++ l2) s errFlag log = dumpLoop w l2 s1 errFlag1 log1 := by
  intro l1
  induction l1 with
  | nil =>
    intro l2 s errFlag log errFlag1 s1 log1 h
    simp only [dumpLoop, Outcome.ret.injEq, Prod.mk.injEq] at h
    obtain ⟨rfl, rfl, rfl⟩ := h
    rfl
  | cons item rest ih =>
    intro l2 s errFlag log errFlag1 s1 log1 h
    by_cases hc : item.Type_ = "Consumption"
    · rw [dumpLoop_cons_consumption w hitems item rest s errFlag log hc] at h
      rw [List.cons_append, dumpLoop_cons_consumption w hitems item (rest ++ l2) s errFlag log hc]
      exact ih l2 _ _ _ _ _ _ h
    · rw [dumpLoop_cons_other w item rest s errFlag log hc] at h
      rw [List.cons_append, dumpLoop_cons_other w item (rest ++ l2) s errFlag log hc]
      exact ih l2 _ _ _ _ _ _ h

/-- The error `DumpPricesToDynamo` returns for a final value of the flag. -/
theorem DumpPricesToDynamo_of_loop {σ : Type} (w : World σ) (s s1 : σ)
    (l : List AzurePricingApiItem) (errFlag : Bool) (log : List WriteAttempt)
    (h : dumpLoop w l s false [] = Outcome.ret (errFlag, s1, log)) :
    DumpPricesToDynamo w s l
      = Outcome.ret
          (if errFlag then some "one or more items was unable to be written" else none, s1, log) := by
  unfold DumpPricesToDynamo
  rw [h]
  cases errFlag <;> rfl

/-- The run of `DumpPricesToDynamo` on a store whose items carry
`priceItems`: it returns; the record holds one write per entry of type
"Consumption", in order; the write for an entry is the one `specPersistEntry`
gives at the state the entries before it leave; the error tells whether a
recorded write failed. -/
theorem DumpPricesToDynamo_run_spec {σ : Type} (w : World σ) (hitems : ItemsCarryPriceItems w)
    (s : σ) (listing : List AzurePricingApiItem) :
    ∃ (err : Option String) (s1 : σ) (log : List WriteAttempt),
      DumpPricesToDynamo w s listing = Outcome.ret (err, s1, log) ∧
      log.map (fun a => a.entry)
        = listing.filter (fun e => decide (e.Type_ = "Consumption")) ∧
      (∀ (before : List AzurePricingApiItem) (item : AzurePricingApiItem)
          (rest : List AzurePricingApiItem),
        listing = before ++ item :: rest → item.Type_ = "Consumption" →
        ∃ (errB : Option String) (sB : σ) (logB : List WriteAttempt) (errA : Option String),
          DumpPricesToDynamo w s before = Outcome.ret (errB, sB, logB) ∧
          DumpPricesToDynamo w s (before ++ [item])
            = Outcome.ret (errA, (specPersistEntry w sB item).2,
                logB ++ [(specPersistEntry w sB item).1]) ∧
          log[logB.length]? = some (specPersistEntry w sB item).1) ∧
      (err = some "one or more items was unable to be written" ↔
        ∃ a ∈ log, a.err ≠ none) ∧
      (err = none ↔ ∀ a ∈ log, a.err = none) := by
  obtain ⟨f, s1, log, hrun, hmap, hflag⟩ := dumpLoop_spec w hitems listing s false []
  simp only [List.nil_append, Bool.false_or] at hrun hflag
  have hany : f = true ↔ ∃ a ∈ log, a.err ≠ none := by
    rw [hflag, List.any_eq_true]
    constructor
    · rintro ⟨a, ha, hs⟩
      exact ⟨a, ha, by intro hn; rw [hn] at hs; cases hs⟩
    · rintro ⟨a, ha, hs⟩
      refine ⟨a, ha, ?_⟩
      cases h : a.err with
      | none => exact absurd h hs
      | some e => rfl
  refine ⟨if f then some "one or more items was unable to be written" else none, s1, log,
    DumpPricesToDynamo_of_loop w s s1 listing f log hrun, hmap, ?_, ?_, ?_⟩
  · intro before item rest hsplit hc
    obtain ⟨fB, sB, logB, hB, _, _⟩ := dumpLoop_spec w hitems before s false []
    simp only [List.nil_append] at hB
    have hA : dumpLoop w (before ++ [item]) s false []
        = Outcome.ret (fB || (specPersistEntry w sB item).1.err.isSome,
            (specPersistEntry w sB item).2, logB ++ [(specPersistEntry w sB item).1]) := by
      rw [dumpLoop_append w hitems before [item] s false [] fB sB logB hB,
        dumpLoop_cons_consumption w hitems item [] sB fB logB hc]
      rfl
    obtain ⟨fR, sR, new, hR, _, _⟩ := dumpLoop_spec w hitems rest (specPersistEntry w sB item).2
      (fB || (specPersistEntry w sB item).1.err.isSome) (logB ++ [(specPersistEntry w sB item).1])
    have hfull : dumpLoop w listing s false []
        = Outcome.ret (fR, sR, logB ++ [(specPersistEntry w sB item).1] ++ new) := by
      rw [hsplit, dumpLoop_append w hitems before (item :: rest) s false [] fB sB logB hB,
        dumpLoop_cons_consumption w hitems item rest sB fB logB hc, hR]
    rw [hrun] at hfull
    simp only [Outcome.ret.injEq, Prod.mk.injEq] at hfull
    obtain ⟨_, _, hlog⟩ := hfull
    refine ⟨_, sB, logB, _, DumpPricesToDynamo_of_loop w s sB before fB logB hB,
      DumpPricesToDynamo_of_loop w s _ (before ++ [item]) _ _ hA, ?_⟩
    rw [hlog, List.append_assoc, List.getElem?_append_right (Nat.le_refl _)]
    simp
  · rw [← hany]
    cases f <;> simp
  · have hnone : (∀ a ∈ log, a.err = none) ↔ ¬ ∃ a ∈ log, a.err ≠ none := by
      constructor
      · rintro h ⟨a, ha, hs⟩; exact hs (h a ha)
      · intro h a ha
        by_contra hs
        exact h ⟨a, ha, hs⟩
    rw [hnone, ← hany]
    cases f <;> simp

/-- Counterexample to C8: the listing holds two "Consumption" entries and the
store answers the first read with an item that has no `priceItems` string;
`DumpPricesToDynamo` panics, so it attempts no write, for neither entry, and
returns nothing. -/
theorem DumpPricesToDynamo_panics_on_bare_item :
    DumpPricesToDynamo (staticWorld failingFeed bareItemRead) ()
        [⟨"Consumption", "A", "vm"⟩, ⟨"Consumption", "B", "disk"⟩]
      = Outcome.panic := by
  rfl

/-- C8, amended: for every listing and every behaviour of a store whose items
carry a `priceItems` string, `DumpPricesToDynamo` returns, having made one
write attempt for every entry of type "Consumption" of the listing, in order,
so also for the entries after one whose write failed; the attempt for an entry
puts, under the derived identifier, the merge of the entry into the group
loaded at the state the earlier entries left, and records the error of the
encoding or of the store's put; the aggregate error is returned if and only
if one of these attempts failed, and `nil` if and only if all succeeded. -/
theorem DumpPricesToDynamo_attempts_all_and_aggregates {σ : Type} (w : World σ)
    (hitems : ItemsCarryPriceItems w) (s : σ) (listing : List AzurePricingApiItem) :
    ∃ (err : Option String) (s1 : σ) (log : List WriteAttempt),
      DumpPricesToDynamo w s listing = Outcome.ret (err, s1, log) ∧
      log.map (fun a => a.entry)
        = listing.filter (fun e => decide (e.Type_ = "Consumption")) ∧
      (∀ (before : List AzurePricingApiItem) (item : AzurePricingApiItem)
          (rest : List AzurePricingApiItem),
        listing = before ++ item :: rest → item.Type_ = "Consumption" →
        ∃ (errB : Option String) (sB : σ) (logB : List WriteAttempt) (errA : Option String),
          DumpPricesToDynamo w s before = Outcome.ret (errB, sB, logB) ∧
          DumpPricesToDynamo w s (before ++ [item])
            = Outcome.ret (errA, (specPersistEntry w sB item).2,
                logB ++ [(specPersistEntry w sB item).1]) ∧
          log[logB.length]? = some (specPersistEntry w sB item).1) ∧
      (err = some "one or more items was unable to be written" ↔
        ∃ a ∈ log, a.err ≠ none) ∧
      (err = none ↔ ∀ a ∈ log, a.err = none) :=
  DumpPricesToDynamo_run_spec w hitems s listing

/-- Witness of the amended C8 on a store holding no item, whose write of the
second entry fails. -/
theorem DumpPricesToDynamo_attempts_all_and_aggregates_witness :
    ItemsCarryPriceItems (staticWorld failingFeed emptyRead) ∧
    ∃ (err : Option String) (s1 : Unit) (log : List WriteAttempt),
      DumpPricesToDynamo (staticWorld failingFeed emptyRead) () sampleListing
        = Outcome.ret (err, s1, log) ∧
      log.map (fun a => a.entry)
        = sampleListing.filter (fun e => decide (e.Type_ = "Consumption")) ∧
      (∀ (before : List AzurePricingApiItem) (item : AzurePricingApiItem)
          (rest : List AzurePricingApiItem),
        sampleListing = before ++ item :: rest → item.Type_ = "Consumption" →
        ∃ (errB : Option String) (sB : Unit) (logB : List WriteAttempt) (errA : Option String),
          DumpPricesToDynamo (staticWorld failingFeed emptyRead) () before
            = Outcome.ret (errB, sB, logB) ∧
          DumpPricesToDynamo (staticWorld failingFeed emptyRead) () (before ++ [item])
            = Outcome.ret (errA, (specPersistEntry (staticWorld failingFeed emptyRead) sB item).2,
                logB ++ [(specPersistEntry (staticWorld failingFeed emptyRead) sB item).1]) ∧
          log[logB.length]?
            = some (specPersistEntry (staticWorld failingFeed emptyRead) sB item).1) ∧
      (err = some "one or more items was unable to be written" ↔
        ∃ a ∈ log, a.err ≠ none) ∧
      (err = none ↔ ∀ a ∈ log, a.err = none) :=
  ⟨(fun _ _ h => by cases h),
   DumpPricesToDynamo_attempts_all_and_aggregates (staticWorld failingFeed emptyRead)
    (fun _ _ h => by cases h) () sampleListing⟩

/-- C9, as the code behaves: when the fetch of a page, the first or a later
one, completes without a transport error but with a status of 400 or above,
`Handler` stops without any catalog write and returns `nil`, which is success,
not a failure. -/
theorem Handler_error_status_returns_nil {σ : Type} (w : World σ) (fuel : Nat) (s s1 : σ)
    (code : Nat) (body : Except String String) (hcode : 400 ≤ code) :
    (w.httpGet s "https://prices.azure.com/api/retail/prices"
        = (HttpGetResult.response code body, s1) →
      Handler w fuel s = some (Outcome.ret (none, s1, []))) ∧
    (∀ (resp : AzurePricingApiResp) (merged : List AzurePricingApiItem) (link : String),
      resp.NextPageLink = some link →
      w.httpGet s link = (HttpGetResult.response code body, s1) →
      pageLoop w (fuel + 1) s resp merged = some (Outcome.ret (none, s1, []))) := by
  have h299 : code > 299 := by omega
  constructor
  · intro hget
    unfold Handler
    simp only [hget, if_pos h299]
  · intro resp merged link hlink hget
    unfold pageLoop
    simp only [hlink, hget, if_pos h299]

/-- Witness of C9 on a feed whose first page answers with status 500. -/
theorem Handler_error_status_returns_nil_witness :
    Handler (staticWorld failingFeed failingRead) 0 () = some (Outcome.ret (none, (), [])) :=
  (Handler_error_status_returns_nil (staticWorld failingFeed failingRead) 0 () () 500
    (Except.ok "Internal Server Error") (by decide)).1 rfl

end Extractor

namespace Api

/-! ## The plan pricer -/

/-- A change with both attributes yields them through the checked accesses of
the source. -/
theorem afterString_of_carries {F : Type} (change : ResourceChange F)
    (h : CarriesSizeAndLocation change) :
    afterString change "size" = some (stringAttr change "size") ∧
    afterString change "location" = some (stringAttr change "location") := by
  obtain ⟨fields, size, location, hafter, hsize, hloc⟩ := h
  have h1 : afterString change "size" = some size := by
    simp [afterString, assertMap, hafter, mapIndex, hsize, assertString]
  have h2 : afterString change "location" = some location := by
    simp [afterString, assertMap, hafter, mapIndex, hloc, assertString]
  simp [stringAttr, h1, h2]

/-- The pricing loop returns the sum of the rates of the priced changes on top
of the running total, when each priced change carries both attributes. -/
theorem priceLoop_spec {F : Type} (env : Env F) :
    ∀ (changes : List (ResourceChange F)) (hourlyPrice : F),
      (∀ c ∈ changes, isPriced c = true → CarriesSizeAndLocation c) →
        priceLoop env changes hourlyPrice
          = Outcome.ret (specHourlyTotal env changes hourlyPrice) := by
  intro changes
  induction changes with
  | nil => intro hp _; rfl
  | cons c rest ih =>
    intro hp h
    have hrest : ∀ c1 ∈ rest, isPriced c1 = true → CarriesSizeAndLocation c1 :=
      fun c1 hc1 => h c1 (List.mem_cons_of_mem _ hc1)
    by_cases hprov : c.Provider = "registry.terraform.io/hashicorp/azurerm"
    · by_cases htype : c.Type_ = "azurerm_linux_virtual_machine"
      · have hpriced : isPriced c = true := by simp [isPriced, hprov, htype]
        obtain ⟨hsize, hloc⟩ := afterString_of_carries c (h c (List.mem_cons_self _ _) hpriced)
        simp only [priceLoop, if_pos hprov, if_pos htype, hsize, hloc]
        rw [ih _ hrest]
        simp [specHourlyTotal, hpriced, rateOf]
      · have hpriced : isPriced c = false := by simp [isPriced, htype]
        simp only [priceLoop, if_pos hprov, if_neg htype]
        rw [ih _ hrest]
        simp [specHourlyTotal, hpriced]
    · have hpriced : isPriced c = false := by simp [isPriced, hprov]
      simp only [priceLoop, if_neg hprov]
      rw [ih _ hrest]
      simp [specHourlyTotal, hpriced]

/-- The result of `PricePlanFile` on a plan that parses and whose priced changes carry both
attributes. -/
theorem PricePlanFile_of_parsed {F : Type} (env : Env F) (jsonBlob : String) (pf : PlanFile F)
    (hparse : env.unmarshalPlan jsonBlob = Except.ok pf)
    (hattrs : ∀ c ∈ pf.ResourceChanges, isPriced c = true → CarriesSizeAndLocation c) :
    PricePlanFile env jsonBlob
      = Outcome.ret (specHourlyTotal env pf.ResourceChanges env.ops.zero, none) := by
  unfold PricePlanFile
  simp only [hparse, priceLoop_spec env pf.ResourceChanges env.ops.zero hattrs]

/-- A change is priced exactly when both tags match. -/
theorem isPriced_iff {F : Type} (c : ResourceChange F) :
    isPriced c = true ↔
      c.Provider = "registry.terraform.io/hashicorp/azurerm" ∧
      c.Type_ = "azurerm_linux_virtual_machine" := by
  simp [isPriced]

/-- C5: for a plan that parses and in which every change of provider
"registry.terraform.io/hashicorp/azurerm" and type
"azurerm_linux_virtual_machine" carries string `size` and `location`
attributes in its after state, `PricePlanFile` returns no error and the sum,
in plan order starting from 0, of the hourly rates of exactly those changes;
a change with another provider tag or another type contributes nothing:
the plan without it gives the same result. -/
theorem PricePlanFile_sums_priced_changes {F : Type} (env : Env F) (jsonBlob : String)
    (pf : PlanFile F) (hparse : env.unmarshalPlan jsonBlob = Except.ok pf)
    (hattrs : ∀ c ∈ pf.ResourceChanges,
      c.Provider = "registry.terraform.io/hashicorp/azurerm" →
      c.Type_ = "azurerm_linux_virtual_machine" → CarriesSizeAndLocation c) :
    PricePlanFile env jsonBlob
      = Outcome.ret
          ((pf.ResourceChanges.filter (fun c =>
              decide (c.Provider = "registry.terraform.io/hashicorp/azurerm") &&
              decide (c.Type_ = "azurerm_linux_virtual_machine"))).foldl
            (fun total c => env.ops.add total (rateOf env c)) env.ops.zero, none) ∧
    ∀ (before after : List (ResourceChange F)) (c : ResourceChange F) (jsonBlob1 : String),
      pf.ResourceChanges = before ++ c :: after →
      (c.Provider ≠ "registry.terraform.io/hashicorp/azurerm" ∨
        c.Type_ ≠ "azurerm_linux_virtual_machine") →
      env.unmarshalPlan jsonBlob1 = Except.ok ⟨before ++ after⟩ →
      PricePlanFile env jsonBlob1 = PricePlanFile env jsonBlob := by
  have hattrs1 : ∀ c ∈ pf.ResourceChanges, isPriced c = true → CarriesSizeAndLocation c := by
    intro c hc hp
    obtain ⟨h1, h2⟩ := (isPriced_iff c).mp hp
    exact hattrs c hc h1 h2
  have hmain := PricePlanFile_of_parsed env jsonBlob pf hparse hattrs1
  refine ⟨hmain, ?_⟩
  intro before after c jsonBlob1 hsplit hskip hparse1
  have hnot : isPriced c = false := by
    rcases hskip with h | h
    · simp [isPriced, h]
    · simp [isPriced, h]
  have hattrs2 : ∀ c1 ∈ (⟨before ++ after⟩ : PlanFile F).ResourceChanges,
      isPriced c1 = true → CarriesSizeAndLocation c1 := by
    intro c1 hc1 hp
    apply hattrs1 c1 _ hp
    rw [hsplit]
    rcases List.mem_append.mp hc1 with h | h
    · exact List.mem_append_left _ h
    · exact List.mem_append_right _ (List.mem_cons_of_mem _ h)
  rw [PricePlanFile_of_parsed env jsonBlob1 ⟨before ++ after⟩ hparse1 hattrs2, hmain, hsplit]
  simp [specHourlyTotal, List.filter_append, List.filter_cons, hnot]

/-- Witness of C5 on the sample plan: the machine is priced at 12 and the
change of the other provider can be removed. -/
theorem PricePlanFile_sums_priced_changes_witness :
    PricePlanFile sampleEnv "two changes" = Outcome.ret (12, none) ∧
    PricePlanFile sampleEnv "one machine" = PricePlanFile sampleEnv "two changes" :=
  ⟨(PricePlanFile_sums_priced_changes sampleEnv "two changes" samplePlan rfl
      (by
        intro c hc hprov htype
        simp only [samplePlan, List.mem_cons, List.mem_singleton, List.not_mem_nil,
          or_false] at hc
        rcases hc with rfl | rfl
        · exact ⟨_, "Standard_B1s", "eastus", rfl, rfl, rfl⟩
        · exact absurd hprov (by decide))).1,
   (PricePlanFile_sums_priced_changes sampleEnv "two changes" samplePlan rfl
      (by
        intro c hc hprov htype
        simp only [samplePlan, List.mem_cons, List.mem_singleton, List.not_mem_nil,
          or_false] at hc
        rcases hc with rfl | rfl
        · exact ⟨_, "Standard_B1s", "eastus", rfl, rfl, rfl⟩
        · exact absurd hprov (by decide))).2
      [⟨"azurerm_linux_virtual_machine", "registry.terraform.io/hashicorp/azurerm",
        ⟨JsonValue.object [("size", JsonValue.string "Standard_B1s"),
          ("location", JsonValue.string "eastus")]⟩⟩]
      [] ⟨"aws_instance", "registry.terraform.io/hashicorp/aws", ⟨JsonValue.null⟩⟩
      "one machine" rfl (Or.inl (by decide)) rfl⟩

/-! ## The HTTP handler -/

/-- The handler always answers with status 200 and, as body, the bytes
`json.Marshal` returned for the estimate derived from the price
`PricePlanFile` returned, whether or not either of them returned an error. -/
theorem Handler_of_price {F : Type} (env : Env F) (request : Request) (price : F)
    (err : Option String) (hprice : PricePlanFile env request.Body = Outcome.ret (price, err)) :
    Handler env request
      = Outcome.ret
          (⟨200, false,
            (env.marshalResp
              ⟨price, env.ops.mul price (env.ops.ofNat 730),
                env.ops.mul price (env.ops.ofNat 8760)⟩).1,
            [("Content-Type", "application/json")]⟩, none) := by
  unfold Handler
  simp only [hprice, MONTH_HOURS, YEAR_HOURS]

/-- Counterexample to C6: the plan holds one supported machine whose rate is
`+Inf`; `PricePlanFile` prices it with no error, `json.Marshal` of the
estimate returns an error and no bytes, and `Handler` answers with status 200
and an empty body, which holds no `estimated_hourly_cost_usd`. -/
theorem Handler_empty_body_when_marshal_fails :
    PricePlanFile nonFiniteEnv "one machine" = Outcome.ret (SampleFloat.posInf, none) ∧
    nonFiniteEnv.marshalResp
        ⟨SampleFloat.posInf,
          nonFiniteEnv.ops.mul SampleFloat.posInf (nonFiniteEnv.ops.ofNat 730),
          nonFiniteEnv.ops.mul SampleFloat.posInf (nonFiniteEnv.ops.ofNat 8760)⟩
      = ("", some "json: unsupported value: +Inf") ∧
    Handler nonFiniteEnv ⟨"one machine"⟩
      = Outcome.ret (⟨200, false, "", [("Content-Type", "application/json")]⟩, none) := by
  refine ⟨rfl, rfl, rfl⟩

/-- C6, amended: when `PricePlanFile` prices the request body with hourly
total `h` and no error, and `json.Marshal` encodes the estimate with hourly
cost `h`, monthly cost `h × 730` and yearly cost `h × 8760` as `b` without
error, `Handler` answers with status 200 and body `b`; for a plan with a
single supported azurerm virtual machine of rate `rate` (with
`0 + rate = rate`) the three figures are `rate`, `rate × 730` and
`rate × 8760`. -/
theorem Handler_estimate_on_success {F : Type} (env : Env F) (request : Request) :
    (∀ (h : F) (b : String),
      PricePlanFile env request.Body = Outcome.ret (h, none) →
      env.marshalResp
          ⟨h, env.ops.mul h (env.ops.ofNat 730), env.ops.mul h (env.ops.ofNat 8760)⟩
        = (b, none) →
      Handler env request
        = Outcome.ret (⟨200, false, b, [("Content-Type", "application/json")]⟩, none)) ∧
    (∀ (fields : List (String × JsonValue F)) (size location b : String) (rate : F),
      env.unmarshalPlan request.Body
        = Except.ok ⟨[⟨"azurerm_linux_virtual_machine", "registry.terraform.io/hashicorp/azurerm",
            ⟨JsonValue.object fields⟩⟩]⟩ →
      fields.lookup "size" = some (JsonValue.string size) →
      fields.lookup "location" = some (JsonValue.string location) →
      env.GetHourlyPrice ⟨size, location⟩ = rate →
      env.ops.add env.ops.zero rate = rate →
      env.marshalResp
          ⟨rate, env.ops.mul rate (env.ops.ofNat 730), env.ops.mul rate (env.ops.ofNat 8760)⟩
        = (b, none) →
      Handler env request
        = Outcome.ret (⟨200, false, b, [("Content-Type", "application/json")]⟩, none)) := by
  constructor
  · intro h b hprice hjson
    rw [Handler_of_price env request h none hprice, hjson]
  · intro fields size location b rate hparse hsize hloc hrate hzero hjson
    have hcarries : CarriesSizeAndLocation
        (⟨"azurerm_linux_virtual_machine", "registry.terraform.io/hashicorp/azurerm",
          ⟨JsonValue.object fields⟩⟩ : ResourceChange F) :=
      ⟨fields, size, location, rfl, hsize, hloc⟩
    have hprice : PricePlanFile env request.Body = Outcome.ret (rate, none) := by
      rw [PricePlanFile_of_parsed env request.Body _ hparse
        (by
          intro c hc _
          rw [List.mem_singleton.mp hc]
          exact hcarries)]
      have hs : stringAttr (⟨"azurerm_linux_virtual_machine",
          "registry.terraform.io/hashicorp/azurerm", ⟨JsonValue.object fields⟩⟩ :
            ResourceChange F) "size" = size := by
        simp [stringAttr, afterString, assertMap, mapIndex, hsize, assertString]
      have hl : stringAttr (⟨"azurerm_linux_virtual_machine",
          "registry.terraform.io/hashicorp/azurerm", ⟨JsonValue.object fields⟩⟩ :
            ResourceChange F) "location" = location := by
        simp [stringAttr, afterString, assertMap, mapIndex, hloc, assertString]
      simp [specHourlyTotal, isPriced, rateOf, hs, hl, hrate, hzero]
    rw [Handler_of_price env request rate none hprice, hjson]

/-- Witness of the amended C6 on the sample plans: the machine of rate 12
gives 12, 8760 and 105120. -/
theorem Handler_estimate_on_success_witness :
    Handler sampleEnv ⟨"two changes"⟩
      = Outcome.ret (⟨200, false, "12,8760,105120", [("Content-Type", "application/json")]⟩,
          none) ∧
    Handler sampleEnv ⟨"one machine"⟩
      = Outcome.ret (⟨200, false, "12,8760,105120", [("Content-Type", "application/json")]⟩,
          none) :=
  ⟨(Handler_estimate_on_success sampleEnv ⟨"two changes"⟩).1 12 "12,8760,105120" rfl rfl,
   (Handler_estimate_on_success sampleEnv ⟨"one machine"⟩).2
      [("size", JsonValue.string "Standard_B1s"), ("location", JsonValue.string "eastus")]
      "Standard_B1s" "eastus" "12,8760,105120" 12 rfl rfl rfl rfl rfl rfl⟩

/-- C7, as the code behaves: when the request body is a malformed plan,
`PricePlanFile` returns price 0 with the parse error, and `Handler` overwrites
the status-500 error response it built: it answers with status 200 and, as
body, the encoding of the estimate of price 0. -/
theorem Handler_malformed_plan_answers_200 {F : Type} (env : Env F) (request : Request)
    (e : String) (hparse : env.unmarshalPlan request.Body = Except.error e) :
    PricePlanFile env request.Body = Outcome.ret (env.ops.zero, some e) ∧
    Handler env request
      = Outcome.ret
          (⟨200, false,
            (env.marshalResp
              ⟨env.ops.zero, env.ops.mul env.ops.zero (env.ops.ofNat 730),
                env.ops.mul env.ops.zero (env.ops.ofNat 8760)⟩).1,
            [("Content-Type", "application/json")]⟩, none) := by
  have hprice : PricePlanFile env request.Body = Outcome.ret (env.ops.zero, some e) := by
    unfold PricePlanFile
    simp only [hparse]
  exact ⟨hprice, Handler_of_price env request env.ops.zero (some e) hprice⟩

/-- Witness of C7 on a body that does not parse: status 200 and a zero
estimate. -/
theorem Handler_malformed_plan_answers_200_witness :
    PricePlanFile sampleEnv "not json" = Outcome.ret (0, some "invalid character") ∧
    Handler sampleEnv ⟨"not json"⟩
      = Outcome.ret (⟨200, false, "0,0,0", [("Content-Type", "application/json")]⟩, none) :=
  Handler_malformed_plan_answers_200 sampleEnv ⟨"not json"⟩ "invalid character" rfl

end Api
